import Mathlib

/-!
Verification of the execution-mode timing instrumentation subsystem declared
in `src/hotspot/src/share/vm/runtime/_bdel.hpp`.

The header declares the state of the subsystem:

* process-wide aggregates `_i_total`, `_c_total` (`volatile uint64_t`);
* per-thread (`__thread`) state `_jvm_state` (`int8_t`; 0 = interpreted,
  1 = compiled, 2 = native/JNI, reserved), `_i_timestamp`, `_c_timestamp`,
  `_i_counter`, `_c_counter` (`uint64_t`);
* the time source `uint64_t _now()` and the reporter
  `void _bdel_knell(const char*)`.

The header is declarations only; the function bodies and the transition
recording code live in `share/vm/runtime/sharedRuntime.cpp` and in the
runtime's call sites, which are not part of the available sources.  Those
parts are therefore modelled from the specification (each such definition
carries a doc comment starting `Modelled from the spec:`).  Unsigned 64-bit
quantities are modelled as `Nat`: every operation involved is an addition of
elapsed times or a subtraction `t - s` with `s ≤ t` guaranteed by the
monotonic clock, so no value ever leaves the `uint64_t` range in a run of
realistic length and the wrap-around of `uint64_t` is never exercised.
-/

namespace Bdel

/-- Execution-mode code stored in `_jvm_state` (`_bdel.hpp` comment:
0 for interpreted, 1 for compiled, 2 for native (jni) TODO). -/
def INTERPRETED : Nat := 0

/-- Mode code 1: just-in-time-compiled execution. -/
def COMPILED : Nat := 1

/-- Mode code 2: the reserved native/JNI mode. -/
def NATIVE : Nat := 2

/-- The per-thread (`__thread`) state declared in `_bdel.hpp` lines 26-31:
current mode, per-mode interval-start timestamps, per-mode counters. -/
structure BdelThread where
  _jvm_state : Nat
  _i_timestamp : Nat
  _c_timestamp : Nat
  _i_counter : Nat
  _c_counter : Nat
deriving Repr, DecidableEq

/-- The process-wide aggregate state declared in `_bdel.hpp` lines 19-20:
`volatile uint64_t _i_total`, `volatile uint64_t _c_total`. -/
structure BdelGlobals where
  _i_total : Nat
  _c_total : Nat
deriving Repr, DecidableEq

/-- Zero-initialized per-thread storage: the `__thread` variables of
`_bdel.hpp` have thread storage duration, and C/C++ zero-initializes such
storage at thread start (the GNU `__thread` extension admits only constant
initializers, so the defining translation unit cannot change this for the
timestamps, which are not compile-time constants). -/
def bdelThreadZero : BdelThread :=
  { _jvm_state := 0, _i_timestamp := 0, _c_timestamp := 0,
    _i_counter := 0, _c_counter := 0 }

/-- Zero-initialized globals: `_i_total` and `_c_total` have static storage
duration and start at 0 at process start. -/
def bdelGlobalsInit : BdelGlobals := { _i_total := 0, _c_total := 0 }

/-- Modelled from the spec: the per-thread initialization performed at
thread-state creation, which is not under the available sources.  Spec 4.2:
on a freshly created thread the `interval_start` for the initial mode must
be initialized at thread-state creation (not left at an undefined zero
value); the initial mode is Interpreted (mode 0).  `t` is the timestamp
sampled from the time source at creation. -/
def bdelThreadCreate (t : Nat) : BdelThread :=
  { bdelThreadZero with _i_timestamp := t }

/-- Modelled from the spec: the mode transition recorder (spec 4.2), whose
code lives in `sharedRuntime.cpp` and the runtime call sites, not under the
available sources.  Called on the thread whose mode changes, with the new
mode `b` and the current time `t`.  Following the spec's words: a transition
to the same mode is a no-op (idempotent against spurious notifications);
otherwise the recorder computes `elapsed = t - interval_start(A)` for the
current mode A, adds it to the thread-local counter for A and to the global
aggregate for A, sets `interval_start(B) = t` and `current_mode = B`.  The
reserved native mode (2) has no accounting path: closing or opening a native
interval touches no counter (accounting-inert, spec 4.2 edge cases). -/
def record_transition (st : BdelThread) (g : BdelGlobals) (b t : Nat) :
    BdelThread × BdelGlobals :=
  if st._jvm_state = b then (st, g)
  else
    let a := st._jvm_state
    let stg :=
      if a = INTERPRETED then
        let elapsed := t - st._i_timestamp
        ({ st with _i_counter := st._i_counter + elapsed },
         { g with _i_total := g._i_total + elapsed })
      else if a = COMPILED then
        let elapsed := t - st._c_timestamp
        ({ st with _c_counter := st._c_counter + elapsed },
         { g with _c_total := g._c_total + elapsed })
      else (st, g)
    let st1 :=
      if b = INTERPRETED then { stg.1 with _i_timestamp := t }
      else if b = COMPILED then { stg.1 with _c_timestamp := t }
      else stg.1
    ({ st1 with _jvm_state := b }, stg.2)

/-- One reading of the OS monotonic clock, as delivered by
`clock_gettime`: a seconds field and a nanoseconds field. -/
structure TimeSpec where
  tv_sec : Nat
  tv_nsec : Nat
deriving Repr, DecidableEq

/-- A clock reading is well-formed when its nanosecond field is below one
second, as POSIX guarantees for every reading it delivers. -/
def TimeSpec.wf (a : TimeSpec) : Prop := a.tv_nsec < 1000000000

instance (a : TimeSpec) : Decidable a.wf := by
  unfold TimeSpec.wf; infer_instance

/-- Ordering of clock readings: `a` was delivered no later than `b`.  The
monotonic clock guarantees that of two readings taken in sequence the later
one compares no smaller in this order (seconds strictly larger, or seconds
equal and nanoseconds no smaller). -/
def TimeSpec.seq_le (a b : TimeSpec) : Prop :=
  a.tv_sec < b.tv_sec ∨ (a.tv_sec = b.tv_sec ∧ a.tv_nsec ≤ b.tv_nsec)

instance (a b : TimeSpec) : Decidable (a.seq_le b) := by
  unfold TimeSpec.seq_le; infer_instance

/-- Modelled from the spec: `uint64_t _now()` (declared in `_bdel.hpp` line
33, body not under the available sources).  Spec 4.1: returns the current
point in time as an unsigned integer, nanosecond-or-finer granularity,
reading the process-monotonic OS clock; total, no failure path.  Modelled as
the conversion of the clock reading it obtains to a single unsigned
nanosecond count. -/
def _now (a : TimeSpec) : Nat := a.tv_sec * 1000000000 + a.tv_nsec

/-- The diagnostic record the reporter assembles for the external output
sink: the caller-supplied tag, the calling thread's two counters, and a
point-in-time snapshot of the two global totals. -/
structure KnellRecord where
  tag : String
  thread_i_counter : Nat
  thread_c_counter : Nat
  snapshot_i_total : Nat
  snapshot_c_total : Nat
deriving Repr, DecidableEq

/-- Modelled from the spec: `void _bdel_knell(const char*)` (declared in
`_bdel.hpp` line 34, body not under the available sources).  Spec 4.4: takes
a caller-supplied tag, reads the calling thread's counters and a snapshot of
the global totals, and produces a diagnostic record for the external output
sink; it is read-only with respect to every counter it reads.  Modelled as
returning the state it touched alongside the emitted record. -/
def _bdel_knell (tag : String) (st : BdelThread) (g : BdelGlobals) :
    (BdelThread × BdelGlobals) × KnellRecord :=
  ((st, g),
   { tag := tag
     thread_i_counter := st._i_counter
     thread_c_counter := st._c_counter
     snapshot_i_total := g._i_total
     snapshot_c_total := g._c_total })

/-- Modelled from the spec: a single atomic add to a shared running total
(spec 4.3, 5): one indivisible read-modify-write step adding a bounded
amount, the only mutation discipline allowed on `_i_total` and
`_c_total`. -/
def atomicAdd (total amount : Nat) : Nat := total + amount

/-- Running a whole schedule of atomic adds against a total, one indivisible
step per scheduled amount. -/
def runAdds (init : Nat) (ops : List Nat) : Nat := ops.foldl atomicAdd init

/-- IsSchedule pending ops holds when ops is one interleaving of the
per-thread pending lists: at each step the scheduler runs some thread's next
atomic add; a thread's own adds stay in program order, steps of different
threads interleave arbitrarily. -/
inductive IsSchedule : List (List Nat) → List Nat → Prop
  | done (pending : List (List Nat)) :
      (∀ l ∈ pending, l = []) → IsSchedule pending []
  | take (pending : List (List Nat)) (i : Nat) (hi : i < pending.length)
      (a : Nat) (rest ops : List Nat) :
      pending.get ⟨i, hi⟩ = a :: rest →
      IsSchedule (pending.set i rest) ops →
      IsSchedule pending (a :: ops)

/-- Whole-process view of the subsystem state: one per-thread record for
every OS thread that touches the runtime, plus the shared globals. -/
structure BdelSystem where
  threads : List BdelThread
  globals : BdelGlobals
deriving Repr, DecidableEq

/-- Modelled from the spec: one externally triggered mode-transition event,
delivered on thread `i` with new mode `b` at time `t` (spec 2, 4.2).  The
recorder runs on the thread whose mode changes; per-thread state of other
threads is exclusively owned by them and untouched.  An index outside the
thread list corresponds to no thread and changes nothing. -/
def sysStep (s : BdelSystem) (i b t : Nat) : BdelSystem :=
  match s.threads[i]? with
  | none => s
  | some st =>
      { threads := s.threads.set i (record_transition st s.globals b t).1
        globals := (record_transition st s.globals b t).2 }

/-- A whole run: the sequence of transition events the runtime delivers,
each a triple (thread index, new mode, time), applied in order.  After the
last event no thread is actively updating (quiescence). -/
def sysRun (s : BdelSystem) (evs : List (Nat × Nat × Nat)) : BdelSystem :=
  evs.foldl (fun s e => sysStep s e.1 e.2.1 e.2.2) s

/-- Sum over all threads of the thread-local interpreted-mode counters. -/
def iCounterSum (s : BdelSystem) : Nat :=
  (s.threads.map fun st => st._i_counter).sum

/-- Sum over all threads of the thread-local compiled-mode counters. -/
def cCounterSum (s : BdelSystem) : Nat :=
  (s.threads.map fun st => st._c_counter).sum

/-- The quiescence invariant: each global total equals the sum over all
threads of the corresponding thread-local counter. -/
def TotalsInv (s : BdelSystem) : Prop :=
  s.globals._i_total = iCounterSum s ∧ s.globals._c_total = cCounterSum s

/-- Process start with one thread per entry of `tss`: each thread's state
was created at its own clock reading, the globals are zero-initialized. -/
def bdelSystemStart (tss : List Nat) : BdelSystem :=
  { threads := tss.map bdelThreadCreate
    globals := bdelGlobalsInit }

/-- Scenario of spec 8, first half: a thread starting in interpreted mode at
t = 0 and switching to compiled mode at t = 100 books 100 interpreted
units, locally and globally. -/
theorem scenario_first_transition :
    record_transition (bdelThreadCreate 0) bdelGlobalsInit 1 100 =
      ({ _jvm_state := 1, _i_timestamp := 0, _c_timestamp := 100,
         _i_counter := 100, _c_counter := 0 },
       { _i_total := 100, _c_total := 0 }) := by decide

/-- Scenario of spec 8, second half: the same thread switching back to
interpreted mode at t = 150 books 50 compiled units, leaving
interpreted = 100 and compiled = 50 in the counters and the globals. -/
theorem scenario_second_transition :
    record_transition
      { _jvm_state := 1, _i_timestamp := 0, _c_timestamp := 100,
        _i_counter := 100, _c_counter := 0 }
      { _i_total := 100, _c_total := 0 } 0 150 =
      ({ _jvm_state := 0, _i_timestamp := 150, _c_timestamp := 100,
         _i_counter := 100, _c_counter := 50 },
       { _i_total := 100, _c_total := 50 }) := by decide

/-- Helper: replacing the element at index i of a list changes the sum of a
mapped function by exactly the difference at that index (stated additively
to stay in `Nat`). -/
theorem sum_map_set {α : Type} (f : α → Nat) :
    ∀ (l : List α) (i : Nat) (x : α) (hi : i < l.length),
      ((l.set i x).map f).sum + f (l.get ⟨i, hi⟩) = (l.map f).sum + f x := by
  intro l
  induction l with
  | nil => intro i x hi; exact absurd hi (Nat.not_lt_zero i)
  | cons a l ih =>
    intro i x hi
    cases i with
    | zero => simp [List.set]; omega
    | succ j =>
      have hj : j < l.length := Nat.lt_of_succ_lt_succ hi
      have := ih j x hj
      simp only [List.set, List.map_cons, List.sum_cons, List.length_cons,
        List.get_cons_succ]
      omega

/-- Helper: a run of atomic adds yields the initial value plus the sum of
the amounts applied. -/
theorem runAdds_eq_add_sum : ∀ (ops : List Nat) (init : Nat),
    runAdds init ops = init + ops.sum := by
  intro ops
  induction ops with
  | nil => intro init; simp [runAdds]
  | cons a ops ih =>
    intro init
    simp only [runAdds, List.foldl_cons, List.sum_cons] at *
    rw [ih]
    simp [atomicAdd]
    omega

/-- Helper: every interleaving of the per-thread amount lists carries the
same total amount — the sum over all threads of their amounts. -/
theorem IsSchedule.sum_eq {pending : List (List Nat)} {ops : List Nat}
    (h : IsSchedule pending ops) :
    ops.sum = (pending.map List.sum).sum := by
  induction h with
  | done pending hall =>
    simp only [List.sum_nil]
    refine (List.sum_eq_zero ?_).symm
    intro x hx
    rcases List.mem_map.1 hx with ⟨l, hl, rfl⟩
    rw [hall l hl]
    rfl
  | take pending i hi a rest ops hget _ ih =>
    have hset := sum_map_set List.sum pending i rest hi
    rw [hget] at hset
    simp only [List.sum_cons] at hset ⊢
    omega

/-- Helper: one recorded transition moves each global total and the
corresponding thread-local counter by the same amount (stated additively to
stay in `Nat`). -/
theorem record_transition_same_delta (st : BdelThread) (g : BdelGlobals)
    (b t : Nat) :
    (record_transition st g b t).2._i_total + st._i_counter
        = g._i_total + (record_transition st g b t).1._i_counter ∧
    (record_transition st g b t).2._c_total + st._c_counter
        = g._c_total + (record_transition st g b t).1._c_counter := by
  simp only [record_transition, INTERPRETED, COMPILED]
  split_ifs <;> simp <;> omega

/-- Helper: a single transition event preserves the quiescence invariant. -/
theorem sysStep_totalsInv (s : BdelSystem) (i b t : Nat)
    (h : TotalsInv s) : TotalsInv (sysStep s i b t) := by
  unfold sysStep
  cases hm : s.threads[i]? with
  | none => exact h
  | some st =>
    rcases List.getElem?_eq_some.1 hm with ⟨hi, hget⟩
    have hgi : s.threads.get ⟨i, hi⟩ = st := hget
    have hdi := sum_map_set (fun st => st._i_counter) s.threads i
      (record_transition st s.globals b t).1 hi
    have hdc := sum_map_set (fun st => st._c_counter) s.threads i
      (record_transition st s.globals b t).1 hi
    rw [hgi] at hdi hdc
    have hrec := record_transition_same_delta st s.globals b t
    rcases h with ⟨h1, h2⟩
    unfold TotalsInv iCounterSum cCounterSum at *
    simp only at *
    omega

/-- Helper: the quiescence invariant is preserved by any whole run of
transition events. -/
theorem sysRun_totalsInv (evs : List (Nat × Nat × Nat)) :
    ∀ s : BdelSystem, TotalsInv s → TotalsInv (sysRun s evs) := by
  induction evs with
  | nil => intro s h; exact h
  | cons e evs ih =>
    intro s h
    exact ih _ (sysStep_totalsInv s e.1 e.2.1 e.2.2 h)

/-- Helper: the invariant holds at process start, for any number of threads
whose state was created at arbitrary clock readings: all thread-local
counters and both globals are zero. -/
theorem totalsInv_start (tss : List Nat) :
    TotalsInv (bdelSystemStart tss) := by
  unfold bdelSystemStart
  unfold TotalsInv iCounterSum cCounterSum bdelGlobalsInit
  simp only [List.map_map]
  constructor <;>
    exact (List.sum_eq_zero (by
      intro x hx
      rcases List.mem_map.1 hx with ⟨u, _, rfl⟩
      rfl)).symm

/-- C1: with current mode A (interpreted or compiled), interval-start s for
A, recording a transition to the other defined mode B at current time t adds
elapsed = t - s to the thread-local counter for A and the same amount to the
global aggregate for A, sets the interval-start for B to t, and sets the
thread's current mode to B.  The timestamp hypotheses record that the
interval starts were sampled no later than t (the clock is monotonic), under
which `Nat` subtraction agrees with the `uint64_t` subtraction `t - s`. -/
theorem c1_transition_accounting (st : BdelThread) (g : BdelGlobals) (t : Nat)
    (hi : st._i_timestamp ≤ t) (hc : st._c_timestamp ≤ t) :
    (st._jvm_state = INTERPRETED →
      record_transition st g COMPILED t =
        ({ st with
            _jvm_state := COMPILED
            _c_timestamp := t
            _i_counter := st._i_counter + (t - st._i_timestamp) },
         { g with _i_total := g._i_total + (t - st._i_timestamp) })) ∧
    (st._jvm_state = COMPILED →
      record_transition st g INTERPRETED t =
        ({ st with
            _jvm_state := INTERPRETED
            _i_timestamp := t
            _c_counter := st._c_counter + (t - st._c_timestamp) },
         { g with _c_total := g._c_total + (t - st._c_timestamp) })) := by
  constructor <;> intro h <;>
    simp [record_transition, h, INTERPRETED, COMPILED]

/-- Witness for C1 at a concrete input: a thread in interpreted mode since
time 3 switching to compiled mode at time 10 books 7 interpreted units. -/
theorem c1_transition_accounting_witness :
    record_transition
        { _jvm_state := 0, _i_timestamp := 3, _c_timestamp := 2,
          _i_counter := 5, _c_counter := 4 }
        { _i_total := 20, _c_total := 30 } COMPILED 10 =
      ({ _jvm_state := 1, _i_timestamp := 3, _c_timestamp := 10,
         _i_counter := 12, _c_counter := 4 },
       { _i_total := 27, _c_total := 30 }) :=
  (c1_transition_accounting
      { _jvm_state := 0, _i_timestamp := 3, _c_timestamp := 2,
        _i_counter := 5, _c_counter := 4 }
      { _i_total := 20, _c_total := 30 } 10
      (by decide) (by decide)).1 rfl

/-- C2: for any number of threads, each with its own sequence of amounts to
add to a shared global accumulator, and any interleaving the scheduler
produces of those atomic adds: the final value of the accumulator equals its
initial value plus the exact arithmetic sum over all threads of all their
amounts (no increment is lost), and a concurrent reporter observing the
accumulator after any prefix of completed adds sees exactly the initial
value plus the sum of the completed amounts — always a genuine partial sum,
never a torn value. -/
theorem c2_atomic_adds_exact_sum (pending : List (List Nat))
    (ops : List Nat) (init : Nat) (h : IsSchedule pending ops) :
    runAdds init ops = init + (pending.map List.sum).sum ∧
    ∀ done later : List Nat, ops = done ++ later →
      runAdds init done = init + done.sum := by
  constructor
  · rw [runAdds_eq_add_sum, h.sum_eq]
  · intro done later _
    exact runAdds_eq_add_sum done init

/-- Witness for C2 at a concrete input: two threads with pending adds
[5] and [7, 2], interleaved as 7, 5, 2 against an accumulator starting at
0, end at exactly 14 = 5 + (7 + 2). -/
theorem c2_atomic_adds_exact_sum_witness :
    runAdds 0 [7, 5, 2] = 0 + ([[5], [7, 2]].map List.sum).sum :=
  (c2_atomic_adds_exact_sum [[5], [7, 2]] [7, 5, 2] 0
    (IsSchedule.take _ 1 (by decide) 7 [2] _ rfl
      (IsSchedule.take _ 0 (by decide) 5 [] _ rfl
        (IsSchedule.take _ 1 (by decide) 2 [] _ rfl
          (IsSchedule.done _ (by decide)))))).1

/-- C3: for two sequential calls to the time source on one thread, where the
second call samples the monotonic clock no earlier than the first, the
returned unsigned integers never form a regressing pair: it never holds
that the second value is smaller than the first.  Totality (no failure
path) and unsignedness are carried by the type of the model: `_now` is a
total function into `Nat`. -/
theorem c3_now_never_regresses (a b : TimeSpec) (ha : a.wf)
    (hab : a.seq_le b) : ¬ _now b < _now a := by
  rcases hab with hlt | ⟨hsec, hns⟩
  · have h1 : _now a < (a.tv_sec + 1) * 1000000000 := by
      simp only [_now, Nat.add_mul, Nat.one_mul]
      exact Nat.add_lt_add_left ha _
    have h2 : (a.tv_sec + 1) * 1000000000 ≤ b.tv_sec * 1000000000 :=
      Nat.mul_le_mul_right _ hlt
    have h3 : b.tv_sec * 1000000000 ≤ _now b := Nat.le_add_right _ _
    omega
  · simp only [_now, hsec]
    omega

/-- Witness for C3 at a concrete input: the reading 1 s 999999999 ns
followed by the reading 2 s 0 ns does not regress. -/
theorem c3_now_never_regresses_witness :
    ¬ _now { tv_sec := 2, tv_nsec := 0 } <
        _now { tv_sec := 1, tv_nsec := 999999999 } :=
  c3_now_never_regresses { tv_sec := 1, tv_nsec := 999999999 }
    { tv_sec := 2, tv_nsec := 0 } (by decide) (by decide)

/-- C4: recording a transition whose target mode equals the thread's current
mode leaves the thread-local counters, the interval-start timestamps, the
mode, and the global totals all unchanged: the recorder is idempotent
against spurious repeated notifications of an unchanged mode. -/
theorem c4_same_mode_noop (st : BdelThread) (g : BdelGlobals) (t : Nat) :
    record_transition st g st._jvm_state t = (st, g) := by
  simp [record_transition]

/-- C5: for every run — any number N of threads created at arbitrary clock
readings, any finite sequence of transition events delivered to them — once
the run is over and no thread is actively updating, the global total
_i_total equals the sum over all N threads of their thread-local _i_counter
values, and _c_total equals the sum of the _c_counter values. -/
theorem c5_quiescent_totals (tss : List Nat) (evs : List (Nat × Nat × Nat)) :
    (sysRun (bdelSystemStart tss) evs).globals._i_total
        = iCounterSum (sysRun (bdelSystemStart tss) evs) ∧
    (sysRun (bdelSystemStart tss) evs).globals._c_total
        = cCounterSum (sysRun (bdelSystemStart tss) evs) :=
  sysRun_totalsInv evs _ (totalsInv_start tss)

/-- C6: for every tag, the reporter leaves all counter state exactly as it
found it — the calling thread's counters and interval-start timestamps and
the global totals are unchanged — and the record it emits to the external
sink holds precisely the values it read. -/
theorem c6_knell_preserves_state (tag : String) (st : BdelThread)
    (g : BdelGlobals) :
    (_bdel_knell tag st g).1.1 = st ∧ (_bdel_knell tag st g).1.2 = g ∧
    (_bdel_knell tag st g).2 =
      { tag := tag
        thread_i_counter := st._i_counter
        thread_c_counter := st._c_counter
        snapshot_i_total := g._i_total
        snapshot_c_total := g._c_total } :=
  ⟨rfl, rfl, rfl⟩

/-- C7: a freshly created OS thread whose mode has not been otherwise
established by the runtime has current mode Interpreted, encoded as mode 0:
this holds for the raw zero-initialized `__thread` storage and is preserved
by the thread-state creation step, which sets only the initial interval
start. -/
theorem c7_initial_mode_interpreted (t : Nat) :
    bdelThreadZero._jvm_state = INTERPRETED ∧
    (bdelThreadCreate t)._jvm_state = INTERPRETED := by
  constructor <;> rfl

/-- C8: thread-state creation at clock reading t initializes the
interval-start timestamp of the initial (interpreted) mode to the actual
timestamp t rather than leaving it at zero, so the first elapsed
computation on the thread yields the genuine first interval: a first
transition to compiled mode at a later time t' books exactly t' - t. -/
theorem c8_creation_samples_timestamp (t t' : Nat) (g : BdelGlobals) :
    (bdelThreadCreate t)._i_timestamp = t ∧
    (record_transition (bdelThreadCreate t) g COMPILED t').1._i_counter =
      t' - t := by
  refine ⟨rfl, ?_⟩
  simp [record_transition, bdelThreadCreate, bdelThreadZero,
    INTERPRETED, COMPILED]

/-- C9: the reserved native mode (2) is accounting-inert.  A transition out
of native mode adds nothing to either thread-local counter or to the global
totals (the interval spent in native mode is not attributed anywhere), and a
transition into native mode from a defined mode books exactly the closing
defined-mode interval and nothing else, so the interpreted and compiled
accumulator pairs never receive a contribution from time spent in native
mode. -/
theorem c9_native_mode_inert (st : BdelThread) (g : BdelGlobals) (b t : Nat) :
    (st._jvm_state = NATIVE →
      (record_transition st g b t).1._i_counter = st._i_counter ∧
      (record_transition st g b t).1._c_counter = st._c_counter ∧
      (record_transition st g b t).2 = g) ∧
    (st._jvm_state = INTERPRETED →
      record_transition st g NATIVE t =
        ({ st with
            _jvm_state := NATIVE
            _i_counter := st._i_counter + (t - st._i_timestamp) },
         { g with _i_total := g._i_total + (t - st._i_timestamp) })) ∧
    (st._jvm_state = COMPILED →
      record_transition st g NATIVE t =
        ({ st with
            _jvm_state := NATIVE
            _c_counter := st._c_counter + (t - st._c_timestamp) },
         { g with _c_total := g._c_total + (t - st._c_timestamp) })) := by
  refine ⟨fun h => ?_, fun h => ?_, fun h => ?_⟩
  · by_cases hb : st._jvm_state = b
    · simp [record_transition, hb]
    · simp [record_transition, h, hb, INTERPRETED, COMPILED, NATIVE]
      split_ifs <;> simp
  · simp [record_transition, h, INTERPRETED, COMPILED, NATIVE]
  · simp [record_transition, h, INTERPRETED, COMPILED, NATIVE]

/-- Witness for C9 at a concrete input: a thread leaving native mode for
interpreted mode at time 50 books nothing anywhere. -/
theorem c9_native_mode_inert_witness :
    (record_transition
        { _jvm_state := 2, _i_timestamp := 3, _c_timestamp := 4,
          _i_counter := 5, _c_counter := 6 }
        { _i_total := 7, _c_total := 8 } 0 50).1._i_counter = 5 ∧
    (record_transition
        { _jvm_state := 2, _i_timestamp := 3, _c_timestamp := 4,
          _i_counter := 5, _c_counter := 6 }
        { _i_total := 7, _c_total := 8 } 0 50).1._c_counter = 6 ∧
    (record_transition
        { _jvm_state := 2, _i_timestamp := 3, _c_timestamp := 4,
          _i_counter := 5, _c_counter := 6 }
        { _i_total := 7, _c_total := 8 } 0 50).2 =
      { _i_total := 7, _c_total := 8 } :=
  (c9_native_mode_inert
      { _jvm_state := 2, _i_timestamp := 3, _c_timestamp := 4,
        _i_counter := 5, _c_counter := 6 }
      { _i_total := 7, _c_total := 8 } 0 50).1 rfl

/-- C10 counterexample: on a thread whose state is created at clock reading
7, the interval-start for the initial (interpreted) mode holds the sampled
timestamp 7, not the zero value the claim asserts. -/
theorem c10_zero_init_counterexample :
    (bdelThreadCreate 7)._i_timestamp = 7 ∧
    (bdelThreadCreate 7)._i_timestamp ≠ 0 := by
  decide

/-- C10 amended: the raw `__thread` per-thread storage and the global totals
are zero-initialized (mode 0, timestamps 0, counters 0, totals 0), but at
thread-state creation the interval-start for the initial mode is then set to
a sampled timestamp before first use; creation changes nothing else. -/
theorem c10_zero_init_amended (t : Nat) :
    bdelThreadZero =
      { _jvm_state := 0, _i_timestamp := 0, _c_timestamp := 0,
        _i_counter := 0, _c_counter := 0 } ∧
    bdelGlobalsInit = { _i_total := 0, _c_total := 0 } ∧
    bdelThreadCreate t = { bdelThreadZero with _i_timestamp := t } := by
  exact ⟨rfl, rfl, rfl⟩

end Bdel
